import Mathlib

/-
Verification development for the mscsim flight-dynamics-model core.

The repository sources at hand are the headers `fdm/main/fdm_Mass.h`,
`fdm_r44/r44_Propulsion.h`, `fdm/utils/fdm_String.h`, the unit test
`tests/tst_fdm_lag.cpp` and build/visualization files.  The corresponding
implementation files (`fdm_Mass.cpp`, `fdm_Lag.cpp`, `r44_Propulsion.cpp`,
the aircraft aggregate) are not part of the corpus, so the behaviour of
`update`, `computeForceAndMoment`, the Lag constructor and the aggregate
step is modelled from the specification (`spec.md`), faithful to its words;
each such definition carries a doc comment starting `Modelled from the
spec:`.  Declarations that do appear in the headers (field layout of
`Mass`, `VarMass`, accessors such as `getMass`, `getMainRotorPsi`, the
default arguments of `String::toBool` / `String::toInt`) are embedded
from the source.

Real-valued quantities are embedded as exact rationals (`ℚ`) wherever the
claims are algebraic, and as real numbers (`ℝ`) for the rotor-azimuth
claims, where the wrap period 2·π is irrational.
-/

/-- Three-component vector, embedding of `fdm::Vector3` (used with `α = ℚ`
for mass/balance quantities and `α = ℝ` for rotor quantities). -/
structure Vec3 (α : Type) where
  x : α
  y : α
  z : α
deriving DecidableEq, Repr

/-- Componentwise addition of vectors. -/
instance [Add α] : Add (Vec3 α) :=
  ⟨fun a b => ⟨a.x + b.x, a.y + b.y, a.z + b.z⟩⟩

/-- The zero vector. -/
instance [Zero α] : Zero (Vec3 α) :=
  ⟨⟨0, 0, 0⟩⟩

/-- Componentwise subtraction of vectors. -/
instance [Sub α] : Sub (Vec3 α) :=
  ⟨fun a b => ⟨a.x - b.x, a.y - b.y, a.z - b.z⟩⟩

/-- Scalar multiplication of a vector. -/
instance [Mul α] : SMul α (Vec3 α) :=
  ⟨fun k v => ⟨k * v.x, k * v.y, k * v.z⟩⟩

theorem Vec3.add_def [Add α] (a b : Vec3 α) :
    a + b = ⟨a.x + b.x, a.y + b.y, a.z + b.z⟩ := rfl

theorem Vec3.zero_def [Zero α] : (0 : Vec3 α) = ⟨0, 0, 0⟩ := rfl

theorem Vec3.sub_def [Sub α] (a b : Vec3 α) :
    a - b = ⟨a.x - b.x, a.y - b.y, a.z - b.z⟩ := rfl

theorem Vec3.smul_def [Mul α] (k : α) (v : Vec3 α) :
    k • v = ⟨k * v.x, k * v.y, k * v.z⟩ := rfl

/-- Vectors over an additive commutative monoid form one, componentwise. -/
instance [AddCommMonoid α] : AddCommMonoid (Vec3 α) where
  add_assoc a b c := by
    simp [Vec3.add_def, add_assoc]
  zero_add a := by
    cases a
    simp [Vec3.add_def, Vec3.zero_def]
  add_zero a := by
    cases a
    simp [Vec3.add_def, Vec3.zero_def]
  add_comm a b := by
    simp [Vec3.add_def, add_comm]
  nsmul := nsmulRec

/-- Cross product of two vectors. -/
def Vec3.cross [Mul α] [Sub α] (a b : Vec3 α) : Vec3 α :=
  ⟨a.y * b.z - a.z * b.y, a.z * b.x - a.x * b.z, a.x * b.y - a.y * b.x⟩

/-- Symmetric 3×3 matrix of rationals, embedding of `fdm::Matrix3x3` as it
is used for inertia tensors and attitude rotations. -/
structure Mat3 where
  xx : ℚ
  xy : ℚ
  xz : ℚ
  yx : ℚ
  yy : ℚ
  yz : ℚ
  zx : ℚ
  zy : ℚ
  zz : ℚ
deriving DecidableEq, Repr

/-- Componentwise matrix addition. -/
instance : Add Mat3 :=
  ⟨fun a b => ⟨a.xx + b.xx, a.xy + b.xy, a.xz + b.xz,
               a.yx + b.yx, a.yy + b.yy, a.yz + b.yz,
               a.zx + b.zx, a.zy + b.zy, a.zz + b.zz⟩⟩

/-- The zero matrix. -/
instance : Zero Mat3 :=
  ⟨⟨0, 0, 0, 0, 0, 0, 0, 0, 0⟩⟩

theorem Mat3.add_eq (a b : Mat3) :
    a + b = ⟨a.xx + b.xx, a.xy + b.xy, a.xz + b.xz,
             a.yx + b.yx, a.yy + b.yy, a.yz + b.yz,
             a.zx + b.zx, a.zy + b.zy, a.zz + b.zz⟩ := rfl

theorem Mat3.zero_eq : (0 : Mat3) = ⟨0, 0, 0, 0, 0, 0, 0, 0, 0⟩ := rfl

/-- Matrices form an additive commutative monoid, componentwise. -/
instance : AddCommMonoid Mat3 where
  add_assoc a b c := by
    simp [Mat3.add_eq, add_assoc]
  zero_add a := by
    cases a
    simp [Mat3.add_eq, Mat3.zero_eq]
  add_zero a := by
    cases a
    simp [Mat3.add_eq, Mat3.zero_eq]
  add_comm a b := by
    simp [Mat3.add_eq, add_comm]
  nsmul := nsmulRec

/-- Matrix–vector product. -/
def Mat3.mulVec (m : Mat3) (v : Vec3 ℚ) : Vec3 ℚ :=
  ⟨m.xx * v.x + m.xy * v.y + m.xz * v.z,
   m.yx * v.x + m.yy * v.y + m.yz * v.z,
   m.zx * v.x + m.zy * v.y + m.zz * v.z⟩

/-- Error classes of the core, per the spec's error taxonomy §7:
configuration errors are fatal at load time, numerical degeneracies
(division by zero total mass) are fatal at run time. -/
inductive FdmError where
  | ConfigurationError
  | DivisionByZero
deriving DecidableEq, Repr

/-- Equality of fallible results is decidable when it is for both the
error and the value type. -/
instance [DecidableEq ε] [DecidableEq α] : DecidableEq (Except ε α)
  | .ok a, .ok b =>
    if h : a = b then .isTrue (by rw [h]) else
      .isFalse (by intro hc; cases hc; exact h rfl)
  | .error e, .error f =>
    if h : e = f then .isTrue (by rw [h]) else
      .isFalse (by intro hc; cases hc; exact h rfl)
  | .ok a, .error f => .isFalse (by intro hc; cases hc)
  | .error e, .ok b => .isFalse (by intro hc; cases hc)

/-! ### Lag filter (`fdm::Lag`)

The header/implementation of `fdm::Lag` is not in the corpus; only the
unit test `tests/tst_fdm_lag.cpp` is.  The state and transition are
modelled from the spec §4.1 (whose recurrence coincides with the reference
recurrence written out in `LagTest::testUpdate`). -/

/-- State of the lag filter, per spec §3 `LagFilterState`: current output
value, previous-input bookkeeping, and a fixed time constant (set at
construction, immutable thereafter).  The previous output `y_{n-1}` is the
current output before the next call, so a single field `y` carries both. -/
structure Lag where
  timeConstant : ℚ
  u_prev : ℚ
  y : ℚ
deriving DecidableEq, Repr

/-- One application of the bilinear (trapezoidal) recurrence of spec §4.1:
`c1 = 1/τ`, `denom = 2 + dt·c1`, `a = dt·c1/denom`, `b = (2 − dt·c1)/denom`,
`y_n = (u_n + u_{n-1})·a + y_{n-1}·b`.  This is also, verbatim, the
reference recurrence of `LagTest::testUpdate` (tst_fdm_lag.cpp:98-103). -/
def lagStep (tc u_prev y_prev u dt : ℚ) : ℚ :=
  let c1 := 1 / tc
  let denom := 2 + dt * c1
  let ca := dt * c1 / denom
  let cb := (2 - dt * c1) / denom
  (u + u_prev) * ca + y_prev * cb

/-- Modelled from the spec: `Lag::update(input, dt)` (implementation file
`fdm_Lag.cpp` absent from the corpus).  Applies the bilinear recurrence of
spec §4.1 and stores `u_{n-1}` and `y_{n-1}` across calls. -/
def Lag.update (u dt : ℚ) (L : Lag) : Lag :=
  { L with u_prev := u, y := lagStep L.timeConstant L.u_prev L.y u dt }

/-- `Lag::getValue()` returns the current output value. -/
def Lag.getValue (L : Lag) : ℚ := L.y

/-- Modelled from the spec: the `fdm::Lag` constructor (`fdm_Lag.cpp`
absent from the corpus; the test constructs `fdm::Lag(TIME_CONSTANT)`).
Per spec §4.1 and §7(a), a non-positive time constant is a configuration
error that fails fast at construction, before simulation starts; otherwise
the filter starts with the given initial output and zero previous input
(the test's initial conditions). -/
def Lag.make (tc y0 : ℚ) : Except FdmError Lag :=
  if tc ≤ 0 then .error .ConfigurationError
  else .ok { timeConstant := tc, u_prev := 0, y := y0 }

/-- Run the filter over a list of `(input, dt)` pairs, one `update` per
element. -/
def Lag.run (L : Lag) (steps : List (ℚ × ℚ)) : Lag :=
  steps.foldl (fun M p => M.update p.1 p.2) L

/-- The claim's reference recurrence, written directly on the pair
`(u_{n-1}, y_{n-1})` of spec §4.1: starting from the initial input and
output, each `(u, dt)` step yields `(u_n, y_n)` with
`y_n = (u_n + u_{n-1})·a + y_{n-1}·b`. -/
def lagBilinearRecurrence (tc : ℚ) (uy : ℚ × ℚ) (steps : List (ℚ × ℚ)) :
    ℚ × ℚ :=
  steps.foldl (fun uy p => (p.1, lagStep tc uy.1 uy.2 p.1 p.2)) uy

/-! ### String conversion defaults (`fdm::String`, fdm_String.h)

`String::toBool` and `String::toInt` are declared (fdm_String.h:95-105)
with default arguments `std::numeric_limits<bool>::quiet_NaN()` and
`std::numeric_limits<int>::quiet_NaN()`.  The C++ standard defines
`std::numeric_limits<T>::quiet_NaN()` for the integral specializations
(`bool`, `int`) to return `T()`, the value-initialized (zero) value of the
type — `false` for `bool`, `0` for `int`; no NaN exists for these types. -/

/-- `std::numeric_limits<bool>::quiet_NaN()`: the `bool` specialization of
a non-floating-point type returns `T()`, i.e. `false`. -/
def numericLimitsBoolQuietNaN : Bool := false

/-- `std::numeric_limits<int>::quiet_NaN()`: the `int` specialization of a
non-floating-point type returns `T()`, i.e. `0`. -/
def numericLimitsIntQuietNaN : Int := 0

/-- The effective default of `String::toBool`'s `def` parameter
(fdm_String.h:95-96) for a call that omits it. -/
def toBoolEffectiveDefault : Bool := numericLimitsBoolQuietNaN

/-- The effective default of `String::toInt`'s `def` parameter
(fdm_String.h:104-105) for a call that omits it. -/
def toIntEffectiveDefault : Int := numericLimitsIntQuietNaN

/-! ### Mass / inertia aggregator (`fdm::Mass`, fdm_Mass.h)

The state layout is embedded from the header (fdm_Mass.h:136-154); the
bodies of `update`, `computeForceAndMoment`, `addVariableMass` and
`getVariableMassByName` (`fdm_Mass.cpp`) are absent from the corpus and
are modelled from spec §4.2. -/

/-- Variable mass component data, `Mass::VarMass` (fdm_Mass.h:78-84).
The C++ field `const double *input` is a non-owning pointer into the
external input registry, keyed by the component's name; it is modelled by
reading an external assignment `inputs : String → ℚ` at the entry's name
during `update`. -/
structure VarMass where
  mass : ℚ
  mass_max : ℚ
  r_bas : Vec3 ℚ
deriving DecidableEq, Repr

/-- State of the aggregator, from the header's protected fields
(fdm_Mass.h:140-154): force/moment outputs, the name-keyed variable-mass
collection (`std::map` modelled as an association list), empty and total
mass, empty and total center of mass, total first mass moment, empty and
total inertia tensor.  The back-pointer `m_aircraft` carries no mass
state and is omitted. -/
structure Mass where
  m_for_bas : Vec3 ℚ
  m_mom_bas : Vec3 ℚ
  m_masses : List (String × VarMass)
  m_mass_e : ℚ
  m_mass_t : ℚ
  m_cm_e_bas : Vec3 ℚ
  m_cm_t_bas : Vec3 ℚ
  m_st_t_bas : Vec3 ℚ
  m_it_e_bas : Mat3
  m_it_t_bas : Mat3
deriving DecidableEq, Repr

/-- `Mass::getMass()` (fdm_Mass.h:116) returns the total mass. -/
def Mass.getMass (m : Mass) : ℚ := m.m_mass_t

/-- `Mass::getFirstMomentOfMass()` (fdm_Mass.h:134). -/
def Mass.getFirstMomentOfMass (m : Mass) : Vec3 ℚ := m.m_st_t_bas

/-- `Mass::getInertiaTensor()` (fdm_Mass.h:128). -/
def Mass.getInertiaTensor (m : Mass) : Mat3 := m.m_it_t_bas

/-- `Mass::getFor_BAS()` (fdm_Mass.h:109). -/
def Mass.getFor_BAS (m : Mass) : Vec3 ℚ := m.m_for_bas

/-- `Mass::getMom_BAS()` (fdm_Mass.h:110). -/
def Mass.getMom_BAS (m : Mass) : Vec3 ℚ := m.m_mom_bas

/-- Clamp an external input value to `[0, mass_max]` (spec §4.2: "read its
external input, clamp to [0, mass_max], store as current mass"). -/
def clampMass (v mass_max : ℚ) : ℚ := max 0 (min v mass_max)

/-- Inertia tensor of a point mass `m` displaced by `d` from the reference
point: `m·(|d|²·E − d·dᵀ)`, the point-mass form of the parallel-axis
theorem (spec §4.2, glossary). -/
def pointInertia (m : ℚ) (d : Vec3 ℚ) : Mat3 :=
  ⟨m * (d.y ^ 2 + d.z ^ 2), -(m * d.x * d.y), -(m * d.x * d.z),
   -(m * d.y * d.x), m * (d.x ^ 2 + d.z ^ 2), -(m * d.y * d.z),
   -(m * d.z * d.x), -(m * d.z * d.y), m * (d.x ^ 2 + d.y ^ 2)⟩

/-- The variable-mass collection after `update` reads and clamps every
entry's external input (spec §4.2 first bullet). -/
def updatedMasses (inputs : String → ℚ) (ms : List (String × VarMass)) :
    List (String × VarMass) :=
  ms.map fun q => (q.1, { q.2 with mass := clampMass (inputs q.1) q.2.mass_max })

/-- Total mass after clamping: empty mass plus the sum of the clamped
variable masses (spec §4.2 second bullet). -/
def totalMassAfter (inputs : String → ℚ) (m : Mass) : ℚ :=
  m.m_mass_e + ((updatedMasses inputs m.m_masses).map fun q => q.2.mass).sum

/-- Total first mass moment after clamping: empty first moment
(empty mass times empty center of mass) plus `Σ mass_i · r_i`
(spec §4.2 third bullet). -/
def totalFirstMomentAfter (inputs : String → ℚ) (m : Mass) : Vec3 ℚ :=
  m.m_mass_e • m.m_cm_e_bas +
    ((updatedMasses inputs m.m_masses).map fun q => q.2.mass • q.2.r_bas).sum

/-- Modelled from the spec: `Mass::update()` (`fdm_Mass.cpp` absent from
the corpus), per spec §4.2: read and clamp every entry's external input,
recompute total mass, total first mass moment, total center of mass
(failing with a DivisionByZero-class error when total mass ≤ 0 — fatal,
not recovered internally), and the total inertia tensor (empty tensor
re-referenced to the total center of mass by the parallel-axis theorem
plus each variable mass's point-inertia contribution about the total
center of mass). -/
def Mass.update (inputs : String → ℚ) (m : Mass) : Except FdmError Mass :=
  let ms := updatedMasses inputs m.m_masses
  let mass_t := totalMassAfter inputs m
  let st_t := totalFirstMomentAfter inputs m
  if 0 < mass_t then
    let cm_t := (1 / mass_t) • st_t
    let it_t := m.m_it_e_bas + pointInertia m.m_mass_e (cm_t - m.m_cm_e_bas) +
      (ms.map fun q => pointInertia q.2.mass (q.2.r_bas - cm_t)).sum
    .ok { m with m_masses := ms, m_mass_t := mass_t, m_st_t_bas := st_t,
                 m_cm_t_bas := cm_t, m_it_t_bas := it_t }
  else .error .DivisionByZero

/-- Modelled from the spec: `Mass::computeForceAndMoment()`
(`fdm_Mass.cpp` absent from the corpus), per spec §4.2: the gravitational
force is total mass times the local gravity vector rotated into BAS by the
current attitude matrix, and the moment is the moment of that force about
the reference point (applied at the total center of mass); the only
effect is populating the cached force and moment output fields. -/
def Mass.computeForceAndMoment (bas : Mat3) (grav : Vec3 ℚ) (m : Mass) :
    Mass :=
  let for_bas := m.m_mass_t • bas.mulVec grav
  { m with m_for_bas := for_bas, m_mom_bas := m.m_cm_t_bas.cross for_bas }

/-- Modelled from the spec: `Mass::getVariableMassByName(name)`
(fdm_Mass.h:167, body absent from the corpus), per spec §4.2: a lookup in
the name-keyed collection returning a non-owning reference to the entry,
or an explicit NotFound result (`none`) when no entry with that name
exists; it neither transfers ownership nor modifies the collection. -/
def Mass.getVariableMassByName (m : Mass) (name : String) : Option VarMass :=
  (m.m_masses.find? fun q => q.1 = name).map Prod.snd

/-! ### Rotorcraft propulsion contributor (`fdm::R44_Propulsion`,
r44_Propulsion.h)

The state layout and accessors are embedded from the header
(r44_Propulsion.h:64-78); the bodies of `update` and
`computeForceAndMoment` (`r44_Propulsion.cpp`) are absent from the corpus
and are modelled from spec §3 and §4.3.  Azimuths and rates are real
numbers because the wrap period 2·π is irrational. -/

/-- State of the rotorcraft propulsion contributor: per-rotor azimuth and
angular rate (r44_Propulsion.h:74-78) plus the cached force/moment output
fields inherited from the `Propulsion` base. -/
structure R44_Propulsion where
  mainRotorPsi : ℝ
  tailRotorPsi : ℝ
  mainRotorOmega : ℝ
  tailRotorOmega : ℝ
  for_bas : Vec3 ℝ
  mom_bas : Vec3 ℝ

/-- `R44_Propulsion::getMainRotorPsi()` (r44_Propulsion.h:64). -/
def R44_Propulsion.getMainRotorPsi (p : R44_Propulsion) : ℝ := p.mainRotorPsi

/-- `R44_Propulsion::getTailRotorPsi()` (r44_Propulsion.h:65). -/
def R44_Propulsion.getTailRotorPsi (p : R44_Propulsion) : ℝ := p.tailRotorPsi

/-- `R44_Propulsion::getMainRotorOmega()` (r44_Propulsion.h:67). -/
def R44_Propulsion.getMainRotorOmega (p : R44_Propulsion) : ℝ :=
  p.mainRotorOmega

/-- `R44_Propulsion::getTailRotorOmega()` (r44_Propulsion.h:68). -/
def R44_Propulsion.getTailRotorOmega (p : R44_Propulsion) : ℝ :=
  p.tailRotorOmega

/-- Wrap an angle to `[0, 2π)`: the value `x mod 2π`, i.e.
`2π · fract (x / 2π)` (spec §3, §4.3: "azimuth wraps modulo 2π"). -/
noncomputable def wrapTwoPi (x : ℝ) : ℝ :=
  2 * Real.pi * Int.fract (x / (2 * Real.pi))

/-- Modelled from the spec: `R44_Propulsion::update()`
(`r44_Propulsion.cpp` absent from the corpus), per spec §3 and §4.3: each
rotor's azimuth advances by forward-Euler integration using the previous
step's angular rate and the timestep, then wraps modulo 2π.  The rates'
own evolution is driven by the engine model through commanded control
inputs, an external collaborator whose law the spec does not give; over
one kinematic step the stored rate is carried unchanged. -/
noncomputable def R44_Propulsion.update (dt : ℝ) (p : R44_Propulsion) :
    R44_Propulsion :=
  { p with
    mainRotorPsi := wrapTwoPi (p.mainRotorPsi + p.mainRotorOmega * dt),
    tailRotorPsi := wrapTwoPi (p.tailRotorPsi + p.tailRotorOmega * dt) }

/-- Run the propulsion contributor over a list of timesteps, one `update`
per element. -/
noncomputable def R44_Propulsion.run (p : R44_Propulsion) (dts : List ℝ) :
    R44_Propulsion :=
  dts.foldl (fun q dt => q.update dt) p

/-- Modelled from the spec: `R44_Propulsion::computeForceAndMoment()`
(`r44_Propulsion.cpp` absent from the corpus), per spec §4.3: it derives
thrust/torque from the current (pre-update) rotor rates and commanded
control inputs — an external collaborator, abstracted here as the force
law `law` from (main rotor rate, tail rotor rate, controls) to a
force/moment pair — and populates the cached output fields, leaving the
rotor state untouched so it may be called before `update()`. -/
def R44_Propulsion.computeForceAndMoment
    (law : ℝ → ℝ → ℝ → Vec3 ℝ × Vec3 ℝ) (controls : ℝ)
    (p : R44_Propulsion) : R44_Propulsion :=
  let fm := law p.mainRotorOmega p.tailRotorOmega controls
  { p with for_bas := fm.1, mom_bas := fm.2 }

/-! ### Aircraft aggregate step (spec §4.4)

No aircraft-aggregate source is in the corpus; the step-ordering model is
taken from spec §4.4: in one step, every contributor's force and moment
are computed from the identical pre-step rigid-body state snapshot, and
the results are summed. -/

/-- Rigid-body state per spec §3: position, orientation (Euler set),
linear velocity, angular velocity. -/
structure RigidBodyState where
  pos : Vec3 ℚ
  att : Vec3 ℚ
  vel : Vec3 ℚ
  omg : Vec3 ℚ

/-- A force/moment contributor as the aggregate sees it in step 2 of
spec §4.4: a function from the pre-step state snapshot to a force and a
moment in BAS.  Modelled from the spec: the aggregate source is absent
from the corpus. -/
def Contributor : Type := RigidBodyState → Vec3 ℚ × Vec3 ℚ

/-- Modelled from the spec: steps 2-3 of the aggregate's per-step pipeline
(spec §4.4) — every contributor computes its force and moment from the
same pre-step snapshot `s`, and the aggregate sums them. -/
def totalForceAndMoment (cs : List Contributor) (s : RigidBodyState) :
    Vec3 ℚ × Vec3 ℚ :=
  (cs.map fun c => c s).sum

/-! ### Concrete evaluation fixtures

Small concrete configurations on which the general theorems below are
instantiated and evaluated. -/

/-- A name used for a concrete variable-mass entry. -/
def fuelName : String := "fuel"

/-- A concrete variable-mass entry: 3 kg current, 10 kg maximum, offset
1 m along x. -/
def vmW : VarMass := ⟨3, 10, ⟨1, 0, 0⟩⟩

/-- A concrete external input assignment. -/
def inputsW : String → ℚ := fun _ => 5

/-- A concrete aggregator state: 2 kg empty mass, no variable masses,
everything referenced at the origin. -/
def massW : Mass :=
  ⟨0, 0, [], 2, 2, 0, 0, 0, 0, 0⟩

/-- A degenerate aggregator state with zero empty mass and no variable
masses. -/
def massZ : Mass :=
  ⟨0, 0, [], 0, 0, 0, 0, 0, 0, 0⟩

/-- An aggregator state holding one named variable-mass entry. -/
def massE : Mass :=
  ⟨0, 0, [(fuelName, vmW)], 2, 5, 0, 0, 0, 0, 0⟩

/-- A concrete lag filter: time constant 2 s, zero initial state. -/
def lagW : Lag := ⟨2, 0, 0⟩

/-- A concrete propulsion state at rest. -/
noncomputable def propW : R44_Propulsion := ⟨0, 0, 0, 0, 0, 0⟩

/-- A concrete rigid-body state. -/
def rbsW : RigidBodyState := ⟨⟨1, 2, 3⟩, 0, 0, ⟨0, 0, 1⟩⟩

/-- A concrete contributor returning a constant force. -/
def contribA : Contributor := fun _ => (⟨1, 0, 0⟩, ⟨0, 1, 0⟩)

/-- A concrete contributor whose force depends on the state snapshot. -/
def contribB : Contributor := fun s => (s.pos, s.omg)

/-! ## Theorems -/

/-- Running the filter tracks the spec's bilinear recurrence on the pair
of stored previous input and previous output, and never changes the time
constant. -/
theorem Lag.run_recurrence (steps : List (ℚ × ℚ)) :
    ∀ L : Lag,
      ((L.run steps).u_prev, (L.run steps).y) =
        lagBilinearRecurrence L.timeConstant (L.u_prev, L.y) steps ∧
      (L.run steps).timeConstant = L.timeConstant := by
  induction steps with
  | nil => intro L; exact ⟨rfl, rfl⟩
  | cons s rest ih =>
    intro L
    have h := ih (L.update s.1 s.2)
    simp only [Lag.run, List.foldl_cons, lagBilinearRecurrence,
      Lag.update] at h ⊢
    exact h

/-- C2: for every time constant τ > 0, input sequence and timestep
sequence, after the n-th call to `Lag::update(u_n, dt_n)` the value
returned by `getValue()` is y_n of the bilinear (trapezoidal) recurrence
`y_n = (u_n + u_{n-1})·a + y_{n-1}·b` with `c1 = 1/τ`,
`denom = 2 + dt·c1`, `a = dt·c1/denom`, `b = (2 − dt·c1)/denom`, the
filter carrying `u_{n-1}` and `y_{n-1}` across calls, starting from the
initial input and output. -/
theorem Lag.update_is_bilinear (L : Lag) (_htc : 0 < L.timeConstant)
    (steps : List (ℚ × ℚ)) :
    (L.run steps).getValue =
      (lagBilinearRecurrence L.timeConstant (L.u_prev, L.y) steps).2 ∧
    (L.run steps).u_prev =
      (lagBilinearRecurrence L.timeConstant (L.u_prev, L.y) steps).1 := by
  have h := (Lag.run_recurrence steps L).1
  exact ⟨congrArg Prod.snd h, congrArg Prod.fst h⟩

/-- Evaluation of `Lag.update_is_bilinear` on the test's configuration
(τ = 2) for one step of input 1 and dt = 1/10. -/
theorem Lag.update_is_bilinear_witness :
    0 < lagW.timeConstant ∧
    (lagW.run [(1, 1/10)]).getValue =
      (lagBilinearRecurrence lagW.timeConstant (lagW.u_prev, lagW.y)
        [(1, 1/10)]).2 :=
  ⟨by decide, (Lag.update_is_bilinear lagW (by decide) [(1, 1/10)]).1⟩

/-- Zero input and zero state is invariant under the lag filter
recurrence. -/
theorem Lag.run_zero_invariant (dts : List ℚ) :
    ∀ L : Lag, L.u_prev = 0 → L.y = 0 →
      (L.run (dts.map fun dt => ((0 : ℚ), dt))).u_prev = 0 ∧
      (L.run (dts.map fun dt => ((0 : ℚ), dt))).y = 0 := by
  induction dts with
  | nil => intro L hu hy; exact ⟨hu, hy⟩
  | cons dt rest ih =>
    intro L hu hy
    have h := ih (L.update 0 dt) rfl (by simp [Lag.update, lagStep, hu, hy])
    simpa [Lag.run, List.foldl_cons] using h

/-- C7: for the lag filter with any time constant τ > 0 and initial
output 0, if the input is held at 0 for every call to `update(input, dt)`
then `getValue()` returns 0 after every call, for all timestep sequences:
zero is a fixed point of the filter. -/
theorem Lag.zero_fixed_point (tc : ℚ) (L : Lag)
    (hL : Lag.make tc 0 = .ok L) (dts : List ℚ) :
    (L.run (dts.map fun dt => ((0 : ℚ), dt))).getValue = 0 := by
  unfold Lag.make at hL
  split at hL
  · exact absurd hL (by simp)
  · cases hL
    exact (Lag.run_zero_invariant dts _ rfl rfl).2

/-- Evaluation of `Lag.zero_fixed_point` at τ = 2 over two zero-input
steps. -/
theorem Lag.zero_fixed_point_witness :
    Lag.make 2 0 = .ok lagW ∧
    (lagW.run ([1/10, 1/5].map fun dt => ((0 : ℚ), dt))).getValue = 0 :=
  ⟨by decide, Lag.zero_fixed_point 2 lagW (by decide) [1/10, 1/5]⟩

/-- C9: constructing a lag filter with time constant τ ≤ 0 is a
configuration error that fails fast, aborting construction with a
ConfigurationError-class failure surfaced to the caller before simulation
starts; with τ > 0 construction succeeds with the given time constant and
initial output. -/
theorem Lag.make_fails_fast (tc y0 : ℚ) :
    (Lag.make tc y0 = .error .ConfigurationError ↔ tc ≤ 0) ∧
    (0 < tc →
      Lag.make tc y0 = .ok { timeConstant := tc, u_prev := 0, y := y0 }) := by
  unfold Lag.make
  constructor
  · split
    · simp_all
    · simp_all
  · intro hpos
    rw [if_neg (not_le.mpr hpos)]

/-- Evaluation of `Lag.make_fails_fast` at τ = -1 (rejected) and τ = 2
(accepted). -/
theorem Lag.make_fails_fast_witness :
    ((-1 : ℚ) ≤ 0 ∧ Lag.make (-1) 0 = .error .ConfigurationError) ∧
    (0 < (2 : ℚ) ∧ Lag.make 2 0 = .ok { timeConstant := 2, u_prev := 0, y := 0 }) :=
  ⟨⟨by decide, (Lag.make_fails_fast (-1) 0).1.mpr (by decide)⟩,
   ⟨by decide, (Lag.make_fails_fast 2 0).2 (by decide)⟩⟩

/-- C10: `String::toBool` and `String::toInt` declare their fallback
default arguments as `std::numeric_limits<bool>::quiet_NaN()` and
`std::numeric_limits<int>::quiet_NaN()` (fdm_String.h:95-105); since
`quiet_NaN()` for these integral types evaluates to the zero value of the
type, every call omitting the `def` argument effectively defaults to
`false` for `toBool` and `0` for `toInt` — no NaN value is involved. -/
theorem String.conversion_defaults_are_zero :
    toBoolEffectiveDefault = numericLimitsBoolQuietNaN ∧
    toIntEffectiveDefault = numericLimitsIntQuietNaN ∧
    toBoolEffectiveDefault = false ∧
    toIntEffectiveDefault = 0 :=
  ⟨rfl, rfl, rfl, rfl⟩

/-- C1: after every (successful) call to `Mass::update()`, for every
configuration and every external input values — including negative values
and values above `mass_max` — each variable mass entry's current mass is
its input clamped to [0, mass_max], and `getMass()` returns the empty
mass plus the sum of these clamped variable masses; consequently total
mass ≥ empty mass. -/
theorem Mass.update_clamps_and_totals (m : Mass) (inputs : String → ℚ)
    (m' : Mass) (h : m.update inputs = .ok m') :
    m'.m_masses = updatedMasses inputs m.m_masses ∧
    (∀ q ∈ m'.m_masses, q.2.mass = clampMass (inputs q.1) q.2.mass_max ∧
      0 ≤ q.2.mass ∧ (0 ≤ q.2.mass_max → q.2.mass ≤ q.2.mass_max)) ∧
    m'.getMass = m.m_mass_e +
      (m.m_masses.map fun q => clampMass (inputs q.1) q.2.mass_max).sum ∧
    m.m_mass_e ≤ m'.getMass := by
  simp only [Mass.update] at h
  split at h
  case isFalse => exact absurd h (by simp)
  case isTrue hpos =>
  injection h with h
  subst h
  refine ⟨rfl, ?_, ?_, ?_⟩
  · intro q hq
    simp only [updatedMasses, List.mem_map] at hq
    obtain ⟨p, hp, rfl⟩ := hq
    exact ⟨rfl, le_max_left _ _, fun hmm => max_le hmm (min_le_right _ _)⟩
  · show totalMassAfter inputs m = _
    unfold totalMassAfter updatedMasses
    rw [List.map_map]
    rfl
  · show m.m_mass_e ≤ totalMassAfter inputs m
    unfold totalMassAfter updatedMasses
    rw [List.map_map]
    refine le_add_of_nonneg_right (List.sum_nonneg ?_)
    intro x hx
    simp only [List.mem_map, Function.comp] at hx
    obtain ⟨p, hp, rfl⟩ := hx
    exact le_max_left _ _

/-- Evaluation of `Mass.update_clamps_and_totals` on a concrete
configuration with no variable masses and 2 kg empty mass. -/
theorem Mass.update_clamps_and_totals_witness :
    massW.update inputsW = .ok massW ∧ massW.m_mass_e ≤ massW.getMass :=
  ⟨by with_unfolding_all decide,
   (Mass.update_clamps_and_totals massW inputsW massW
     (by with_unfolding_all decide)).2.2.2⟩

/-- C3: `Mass::update()` recomputes the total center of mass as the total
first mass moment divided by the total mass, and fails with a
DivisionByZero-class error exactly when the total mass is ≤ 0; the
failure is surfaced as the call's result — the update produces no new
state, the error is not retried or recovered internally. -/
theorem Mass.update_division_by_zero (m : Mass) (inputs : String → ℚ) :
    (m.update inputs = .error .DivisionByZero ↔
      totalMassAfter inputs m ≤ 0) ∧
    (∀ m', m.update inputs = .ok m' →
      m'.m_cm_t_bas = (1 / m'.getMass) • m'.getFirstMomentOfMass) := by
  constructor
  · simp only [Mass.update]
    split
    case isTrue hpos =>
      constructor
      · intro hc
        exact absurd hc (by simp)
      · intro hle
        exact absurd hle (not_le.mpr hpos)
    case isFalse hneg =>
      simp only [true_iff]
      exact not_lt.mp hneg
  · intro m' h
    simp only [Mass.update] at h
    split at h
    case isFalse => exact absurd h (by simp)
    case isTrue hpos =>
    injection h with h
    subst h
    rfl

/-- Evaluation of `Mass.update_division_by_zero` on a configuration with
zero empty mass and no variable masses. -/
theorem Mass.update_division_by_zero_witness :
    totalMassAfter inputsW massZ ≤ 0 ∧
    massZ.update inputsW = .error .DivisionByZero :=
  ⟨by with_unfolding_all decide,
   (Mass.update_division_by_zero massZ inputsW).1.mpr
     (by with_unfolding_all decide)⟩

/-- C8: `Mass::getVariableMassByName(name)` returns (a non-owning view
of) the entry carrying that name in the aggregator's variable-mass
collection when one exists, and the explicit not-found result `none`
exactly when no entry with that name exists; being a pure read, it
neither transfers ownership nor modifies the collection. -/
theorem Mass.lookup_by_name (m : Mass) (name : String) :
    (∀ v, m.getVariableMassByName name = some v → (name, v) ∈ m.m_masses) ∧
    (m.getVariableMassByName name = none ↔
      ∀ q ∈ m.m_masses, q.1 ≠ name) := by
  constructor
  · intro v hv
    simp only [Mass.getVariableMassByName, Option.map_eq_some'] at hv
    obtain ⟨q, hq, hv2⟩ := hv
    have hname := List.find?_some hq
    simp only [decide_eq_true_eq] at hname
    have hmem := List.mem_of_find?_eq_some hq
    have : q = (name, v) := by
      cases q
      simp_all
    rwa [this] at hmem
  · simp only [Mass.getVariableMassByName, Option.map_eq_none',
      List.find?_eq_none, decide_eq_true_eq]

/-- Evaluation of `Mass.lookup_by_name` on a configuration holding one
named fuel entry. -/
theorem Mass.lookup_by_name_witness :
    massE.getVariableMassByName fuelName = some vmW ∧
    (fuelName, vmW) ∈ massE.m_masses :=
  ⟨by with_unfolding_all decide,
   (Mass.lookup_by_name massE fuelName).1 vmW (by with_unfolding_all decide)⟩

/-- C5: `computeForceAndMoment()` does not modify the contributor's
evolving internal state.  For the rotorcraft propulsion contributor it
leaves the rotor azimuths and angular rates unchanged and derives force
and moment from the current (pre-update) rotor rates and commanded
controls, so it may be called before `update()`; for the mass contributor
it is a pure function of the current mass properties and attitude whose
only effect is populating the cached force and moment output fields —
every other field is unchanged. -/
theorem computeForceAndMoment_pure :
    (∀ (law : ℝ → ℝ → ℝ → Vec3 ℝ × Vec3 ℝ) (controls : ℝ)
      (p : R44_Propulsion),
      (p.computeForceAndMoment law controls).getMainRotorPsi =
        p.getMainRotorPsi ∧
      (p.computeForceAndMoment law controls).getTailRotorPsi =
        p.getTailRotorPsi ∧
      (p.computeForceAndMoment law controls).getMainRotorOmega =
        p.getMainRotorOmega ∧
      (p.computeForceAndMoment law controls).getTailRotorOmega =
        p.getTailRotorOmega ∧
      (p.computeForceAndMoment law controls).for_bas =
        (law p.getMainRotorOmega p.getTailRotorOmega controls).1 ∧
      (p.computeForceAndMoment law controls).mom_bas =
        (law p.getMainRotorOmega p.getTailRotorOmega controls).2) ∧
    (∀ (bas : Mat3) (grav : Vec3 ℚ) (m : Mass),
      (m.computeForceAndMoment bas grav).m_masses = m.m_masses ∧
      (m.computeForceAndMoment bas grav).m_mass_e = m.m_mass_e ∧
      (m.computeForceAndMoment bas grav).getMass = m.getMass ∧
      (m.computeForceAndMoment bas grav).m_cm_e_bas = m.m_cm_e_bas ∧
      (m.computeForceAndMoment bas grav).m_cm_t_bas = m.m_cm_t_bas ∧
      (m.computeForceAndMoment bas grav).getFirstMomentOfMass =
        m.getFirstMomentOfMass ∧
      (m.computeForceAndMoment bas grav).m_it_e_bas = m.m_it_e_bas ∧
      (m.computeForceAndMoment bas grav).getInertiaTensor =
        m.getInertiaTensor ∧
      (m.computeForceAndMoment bas grav).getFor_BAS =
        m.getMass • bas.mulVec grav ∧
      (m.computeForceAndMoment bas grav).getMom_BAS =
        m.m_cm_t_bas.cross (m.getMass • bas.mulVec grav)) :=
  ⟨fun _ _ _ => ⟨rfl, rfl, rfl, rfl, rfl, rfl⟩,
   fun _ _ _ => ⟨rfl, rfl, rfl, rfl, rfl, rfl, rfl, rfl, rfl, rfl⟩⟩

/-- C6: in one simulation step of the aircraft aggregate, every
contributor's force and moment are computed from the identical pre-step
rigid-body snapshot, so permuting the contributor evaluation order leaves
the summed total force and moment unchanged. -/
theorem aggregate_order_invariance (cs cs' : List Contributor)
    (h : List.Perm cs cs') (s : RigidBodyState) :
    totalForceAndMoment cs s = totalForceAndMoment cs' s :=
  List.Perm.sum_eq (h.map fun c => c s)

/-- Evaluation of `aggregate_order_invariance` on two concrete
contributors evaluated in both orders. -/
theorem aggregate_order_invariance_witness :
    totalForceAndMoment [contribA, contribB] rbsW =
      totalForceAndMoment [contribB, contribA] rbsW :=
  aggregate_order_invariance _ _ (List.Perm.swap contribB contribA []) rbsW

/-- The wrapped angle is nonnegative. -/
theorem wrapTwoPi_nonneg (x : ℝ) : 0 ≤ wrapTwoPi x := by
  unfold wrapTwoPi
  have h2 : (0 : ℝ) < 2 * Real.pi := by positivity
  exact mul_nonneg h2.le (Int.fract_nonneg _)

/-- The wrapped angle is below the period 2·π. -/
theorem wrapTwoPi_lt (x : ℝ) : wrapTwoPi x < 2 * Real.pi := by
  unfold wrapTwoPi
  have h2 : (0 : ℝ) < 2 * Real.pi := by positivity
  calc 2 * Real.pi * Int.fract (x / (2 * Real.pi)) < 2 * Real.pi * 1 :=
        mul_lt_mul_of_pos_left (Int.fract_lt_one _) h2
    _ = 2 * Real.pi := mul_one _

/-- Wrapping is the identity on `[0, 2π)`. -/
theorem wrapTwoPi_eq_self (x : ℝ) (h0 : 0 ≤ x) (h1 : x < 2 * Real.pi) :
    wrapTwoPi x = x := by
  unfold wrapTwoPi
  have h2 : (0 : ℝ) < 2 * Real.pi := by positivity
  rw [Int.fract_eq_self.mpr ⟨div_nonneg h0 h2.le, (div_lt_one h2).mpr h1⟩,
    mul_comm, div_mul_cancel₀ x h2.ne']

/-- Wrapping an already-wrapped angle plus an increment equals wrapping
the raw sum: integration steps compose under the modulus. -/
theorem wrapTwoPi_wrap_add (x y : ℝ) :
    wrapTwoPi (wrapTwoPi x + y) = wrapTwoPi (x + y) := by
  unfold wrapTwoPi
  have h2 : (0 : ℝ) < 2 * Real.pi := by positivity
  have key : (2 * Real.pi * Int.fract (x / (2 * Real.pi)) + y) / (2 * Real.pi)
      = (x + y) / (2 * Real.pi) - (⌊x / (2 * Real.pi)⌋ : ℤ) := by
    rw [Int.fract]
    field_simp
    ring
  rw [key, Int.fract_sub_int]

/-- Folding wrapped forward-Euler azimuth steps from a wrapped start
equals wrapping the start plus rate times total time. -/
theorem wrapFold (ω : ℝ) (dts : List ℝ) :
    ∀ a : ℝ, 0 ≤ a → a < 2 * Real.pi →
      dts.foldl (fun b dt => wrapTwoPi (b + ω * dt)) a =
        wrapTwoPi (a + ω * dts.sum) := by
  induction dts with
  | nil =>
    intro a h0 h1
    simp [wrapTwoPi_eq_self a h0 h1]
  | cons dt rest ih =>
    intro a h0 h1
    have ihw := ih (wrapTwoPi (a + ω * dt)) (wrapTwoPi_nonneg _)
      (wrapTwoPi_lt _)
    simp only [List.foldl_cons, List.sum_cons]
    rw [ihw, wrapTwoPi_wrap_add]
    congr 1
    ring

/-- Running the propulsion contributor folds the wrapped azimuth steps
and never changes the angular rates. -/
theorem R44_Propulsion.run_components (dts : List ℝ) :
    ∀ p : R44_Propulsion,
      (p.run dts).mainRotorPsi =
        dts.foldl (fun b dt => wrapTwoPi (b + p.mainRotorOmega * dt))
          p.mainRotorPsi ∧
      (p.run dts).tailRotorPsi =
        dts.foldl (fun b dt => wrapTwoPi (b + p.tailRotorOmega * dt))
          p.tailRotorPsi ∧
      (p.run dts).mainRotorOmega = p.mainRotorOmega ∧
      (p.run dts).tailRotorOmega = p.tailRotorOmega := by
  induction dts with
  | nil => intro p; exact ⟨rfl, rfl, rfl, rfl⟩
  | cons dt rest ih =>
    intro p
    have h := ih (p.update dt)
    simp only [R44_Propulsion.run, List.foldl_cons,
      R44_Propulsion.update] at h ⊢
    exact h

/-- C4: for every rotor, every initial azimuth in `[0, 2π)`, every
angular rate ω and every sequence of `update()` steps, the azimuth stays
wrapped to `[0, 2π)` after each step; after integrating rate ω over the
steps' total time T — including T with ωT exceeding 2π — the azimuth
accessors return (initial azimuth + ωT) mod 2π rather than an unboundedly
growing angle; and each single step advances the azimuth by forward-Euler
integration using the previous step's rate and the timestep, wrapped. -/
theorem R44_Propulsion.azimuth_wraps (p : R44_Propulsion) (dts : List ℝ)
    (hm0 : 0 ≤ p.getMainRotorPsi) (hm1 : p.getMainRotorPsi < 2 * Real.pi)
    (ht0 : 0 ≤ p.getTailRotorPsi) (ht1 : p.getTailRotorPsi < 2 * Real.pi) :
    ((p.run dts).getMainRotorPsi =
        wrapTwoPi (p.getMainRotorPsi + p.getMainRotorOmega * dts.sum) ∧
      0 ≤ (p.run dts).getMainRotorPsi ∧
      (p.run dts).getMainRotorPsi < 2 * Real.pi) ∧
    ((p.run dts).getTailRotorPsi =
        wrapTwoPi (p.getTailRotorPsi + p.getTailRotorOmega * dts.sum) ∧
      0 ≤ (p.run dts).getTailRotorPsi ∧
      (p.run dts).getTailRotorPsi < 2 * Real.pi) ∧
    (∀ (q : R44_Propulsion) (dt : ℝ),
      (q.update dt).getMainRotorPsi =
        wrapTwoPi (q.getMainRotorPsi + q.getMainRotorOmega * dt) ∧
      (q.update dt).getTailRotorPsi =
        wrapTwoPi (q.getTailRotorPsi + q.getTailRotorOmega * dt)) := by
  have h := R44_Propulsion.run_components dts p
  have hmain : (p.run dts).getMainRotorPsi =
      wrapTwoPi (p.getMainRotorPsi + p.getMainRotorOmega * dts.sum) := by
    show (p.run dts).mainRotorPsi = _
    rw [h.1, wrapFold p.mainRotorOmega dts p.mainRotorPsi hm0 hm1]
    rfl
  have htail : (p.run dts).getTailRotorPsi =
      wrapTwoPi (p.getTailRotorPsi + p.getTailRotorOmega * dts.sum) := by
    show (p.run dts).tailRotorPsi = _
    rw [h.2.1, wrapFold p.tailRotorOmega dts p.tailRotorPsi ht0 ht1]
    rfl
  refine ⟨⟨hmain, ?_, ?_⟩, ⟨htail, ?_, ?_⟩, fun q dt => ⟨rfl, rfl⟩⟩
  · rw [hmain]; exact wrapTwoPi_nonneg _
  · rw [hmain]; exact wrapTwoPi_lt _
  · rw [htail]; exact wrapTwoPi_nonneg _
  · rw [htail]; exact wrapTwoPi_lt _

/-- Evaluation of `R44_Propulsion.azimuth_wraps` on the rest state over a
single one-second step. -/
theorem R44_Propulsion.azimuth_wraps_witness :
    (0 ≤ propW.getMainRotorPsi ∧ propW.getMainRotorPsi < 2 * Real.pi ∧
      0 ≤ propW.getTailRotorPsi ∧ propW.getTailRotorPsi < 2 * Real.pi) ∧
    (propW.run [1]).getMainRotorPsi =
      wrapTwoPi (propW.getMainRotorPsi +
        propW.getMainRotorOmega * ([1] : List ℝ).sum) := by
  have h0 : 0 ≤ propW.getMainRotorPsi := le_refl 0
  have h1 : propW.getMainRotorPsi < 2 * Real.pi := by
    show (0 : ℝ) < 2 * Real.pi
    positivity
  have h2 : 0 ≤ propW.getTailRotorPsi := le_refl 0
  have h3 : propW.getTailRotorPsi < 2 * Real.pi := by
    show (0 : ℝ) < 2 * Real.pi
    positivity
  exact ⟨⟨h0, h1, h2, h3⟩,
    (R44_Propulsion.azimuth_wraps propW [1] h0 h1 h2 h3).1.1⟩
